import Mathlib

/-!
Verification of the zero-trust-lunch pipeline.

A shallow embedding of the backend pipeline of `zero-trust-lunch`
(Express + TypeScript): the employee normalizer, the HR risk-assessment
step (Azure advisory path plus deterministic rule fallback), the finance
budget evaluator, and the manager decision step, together with proofs of
the stated behavioural properties.

Modelling conventions:
* JavaScript strings are Lean `String`s; `String.prototype.includes` is
  embedded as substring search over the character list; `toLowerCase` and
  `trim` are character-list maps (ASCII — every policy keyword is ASCII).
* JavaScript numbers are embedded as `ℚ` (all arithmetic appearing in the
  code — products and comparisons of small integers and rates — is exact
  in IEEE doubles over the intended range); `NaN`, which arises from
  `Number(undefined)` on an unset environment variable, is embedded as
  `none` in `Option ℚ`, with `x * NaN = NaN` and `x <= NaN = false`.
* The asynchronous Azure advisory interaction is embedded as an explicit
  environment (`AzureEnv`) recording the outcome of each awaited external
  call, with `Except` modelling a thrown exception; the `try/catch` of
  `hrStep` becomes a total function that maps any `error` to the fallback.
-/

/-- Substring helper: does `s` start with `pat`?  (char-list version of a
prefix test, used to embed regex alternation matching). -/
def headMatches : List Char → List Char → Bool
  | [], _ => true
  | _ :: _, [] => false
  | a :: as, b :: bs => a == b && headMatches as bs

/-- Substring occurrence test over char lists: `pat` occurs contiguously in
`s`.  Embeds JavaScript `s.includes(pat)`. -/
def charsHaveSub (pat : List Char) : List Char → Bool
  | [] => headMatches pat []
  | c :: rest => headMatches pat (c :: rest) || charsHaveSub pat rest

/-- JavaScript `s.includes(pat)`. -/
def jsIncludes (s pat : String) : Bool := charsHaveSub pat.data s.data

/-- JavaScript `s.toLowerCase()` (ASCII — every policy keyword is ASCII),
written over the character list so that it reduces in the kernel. -/
def jsToLower (s : String) : String := ⟨s.data.map Char.toLower⟩

/-- JavaScript `s.trim()`: strip leading and trailing whitespace. -/
def jsTrim (s : String) : String :=
  ⟨((s.data.dropWhile Char.isWhitespace).reverse.dropWhile Char.isWhitespace).reverse⟩

/-- Insertion into a JavaScript `Set`, traversing the remaining input with
the set of already-seen values: a value already seen is skipped, a new one
is kept and added to the seen set. -/
def dedupFirstGo (seen : List String) : List String → List String
  | [] => []
  | x :: xs =>
    if x ∈ seen then dedupFirstGo seen xs
    else x :: dedupFirstGo (x :: seen) xs

/-- Embeds `[...new Set(l)]` / `Array.from(new Set(l))`: deduplicate keeping the
first occurrence of each value, preserving insertion order. -/
def dedupFirst (l : List String) : List String := dedupFirstGo [] l

/-! ## Data model (backend/src/types.ts) -/

/-- The `'low' | 'medium' | 'high'` risk literal type. -/
inductive RiskLevel where
  | low
  | medium
  | high
deriving DecidableEq, Repr

structure PipelineInput where
  employees : List String
  lunchMenu : List String

structure EmployeeStepResult where
  normalizedEmployees : List String
deriving DecidableEq, Repr

structure HRStepResult where
  sanitizedMenu : List String
  riskLevel : RiskLevel
  reasons : List String
  threadId : Option String
  runId : Option String
deriving DecidableEq, Repr

/-- The `budget` field is `Option ℚ`: `none` embeds the `NaN` produced by
`Number(process.env.HEADCOUNT) * rate` when `HEADCOUNT` is unset. -/
structure FinanceStepResult where
  totalCost : ℚ
  budget : Option ℚ
  withinBudget : Bool
  costPerPerson : ℚ
deriving DecidableEq, Repr

structure ManagerStepResult where
  approved : Bool
  message : String
  finalDecision : String
deriving DecidableEq, Repr

/-! ## Policy ruleset (backend/src/steps/hr.ts) -/

/-- Embeds `containsTobacco`: prohibited tobacco products. -/
def containsTobacco (item : String) : Bool :=
  let itemLower := jsToLower item
  ["tobacco", "cigarette", "cigar", "vape", "smoking", "nicotine"].any
    fun keyword => jsIncludes itemLower keyword

/-- Embeds `containsHardLiquor`: prohibited hard liquor. -/
def containsHardLiquor (item : String) : Bool :=
  let itemLower := jsToLower item
  ["vodka", "whiskey", "rum", "gin", "tequila", "brandy", "cognac",
   "bourbon", "scotch", "liqueur"].any
    fun liquor => jsIncludes itemLower liquor

/-- Embeds `containsAllowedAlcohol`: beer/wine/champagne family (not restricted). -/
def containsAllowedAlcohol (item : String) : Bool :=
  let itemLower := jsToLower item
  ["beer", "wine", "champagne", "sparkling wine", "prosecco", "lager", "ale"].any
    fun alcohol => jsIncludes itemLower alcohol

/-- Embeds `containsMajorAllergens`: peanut / shellfish / tree nut. -/
def containsMajorAllergens (item : String) : Bool :=
  let itemLower := jsToLower item
  ["peanut", "shellfish", "tree nut"].any
    fun allergen => jsIncludes itemLower allergen

/-- The four alternatives of the regex `/pork|bacon|ham|sausage/g`, in
alternation order. -/
def porkKeywords : List (List Char) :=
  ["pork".data, "bacon".data, "ham".data, "sausage".data]

/-- Fuel-driven scan embedding `menuText.match(/pork|bacon|ham|sausage/g)`
match counting: at each position the leftmost alternative that matches is
taken and the scan resumes after it; otherwise the scan advances one
character.  The fuel is the text length, which bounds the number of steps
(every step consumes at least one character). -/
def countPorkGo : Nat → List Char → Nat
  | 0, _ => 0
  | _ + 1, [] => 0
  | fuel + 1, c :: rest =>
    match porkKeywords.find? (fun k => headMatches k (c :: rest)) with
    | some k => 1 + countPorkGo fuel (rest.drop (k.length - 1))
    | none => countPorkGo fuel rest

/-- Number of matches of `/pork|bacon|ham|sausage/g` in `s`. -/
def countPorkMatches (s : List Char) : Nat := countPorkGo s.length s

/-- Embeds `checkInclusivity(menu)`: vegetarian-option presence and pork-heaviness
over the space-joined lowercased menu text.  `porkCount > totalItems * 0.5`
is embedded as `2 * porkCount > totalItems`, which is exactly the IEEE
comparison for integer counts in range. -/
def checkInclusivity (menu : List String) : Bool × Bool :=
  let menuText := jsToLower (String.intercalate " " menu)
  let hasVegetarian :=
    jsIncludes menuText "vegetarian" || jsIncludes menuText "vegan" ||
    jsIncludes menuText "salad" || jsIncludes menuText "veggie"
  let porkCount := countPorkMatches menuText.data
  let totalItems := menu.length
  let isPorkHeavy := 2 * porkCount > totalItems
  (hasVegetarian, isPorkHeavy)

/-- Embeds `parseRiskLevel(response)`: keyword-precedence classification of the
advisory free-text response. -/
def parseRiskLevel (response : String) : RiskLevel :=
  let responseLower := jsToLower response
  if jsIncludes responseLower "tobacco" || jsIncludes responseLower "hard liquor" ||
     jsIncludes responseLower "peanut" || jsIncludes responseLower "shellfish" ||
     jsIncludes responseLower "high risk" || jsIncludes responseLower "dangerous" then
    .high
  else if jsIncludes responseLower "medium risk" || jsIncludes responseLower "moderate" ||
          jsIncludes responseLower "inclusivity" || jsIncludes responseLower "dietary restriction" ||
          jsIncludes responseLower "allergen" then
    .medium
  else
    .low

/-- Embeds `extractRiskReasons(response)`: additive reason extraction from the
advisory response text. -/
def extractRiskReasons (response : String) : List String :=
  let responseLower := jsToLower response
  let r1 : List String :=
    if jsIncludes responseLower "tobacco" || jsIncludes responseLower "cigarette" ||
       jsIncludes responseLower "cigar" || jsIncludes responseLower "vape" ||
       jsIncludes responseLower "smoking" then
      ["🚫 Contains tobacco products (cigars, cigarettes, vapes) - not allowed"]
    else []
  let r2 : List String :=
    if jsIncludes responseLower "vodka" || jsIncludes responseLower "whiskey" ||
       jsIncludes responseLower "rum" || jsIncludes responseLower "tequila" ||
       jsIncludes responseLower "gin" || jsIncludes responseLower "brandy" ||
       jsIncludes responseLower "liqueur" || jsIncludes responseLower "hard liquor" then
      ["🍷 Contains hard liquor - not allowed (beer, wine, champagne are permitted)"]
    else []
  let r3 : List String :=
    if jsIncludes responseLower "peanut" || jsIncludes responseLower "tree nut" then
      ["⚠️ Contains nuts/peanuts - major allergen risk"]
    else []
  let r4 : List String :=
    if jsIncludes responseLower "shellfish" then
      ["⚠️ Contains shellfish - major allergen risk"]
    else []
  let r5 : List String :=
    if jsIncludes responseLower "gluten" && !jsIncludes responseLower "gluten-free" then
      ["⚠️ Contains gluten - dietary restriction concern"]
    else []
  let r6 : List String :=
    if jsIncludes responseLower "dairy" || jsIncludes responseLower "lactose" then
      ["⚠️ Contains dairy/lactose - dietary restriction concern"]
    else []
  let r7 : List String :=
    if jsIncludes responseLower "soy" then
      ["⚠️ Contains soy - allergen concern"]
    else []
  let r8 : List String :=
    if jsIncludes responseLower "egg" then
      ["Contains eggs - allergen concern"]
    else []
  let r9 : List String :=
    if jsIncludes responseLower "pork" && jsIncludes responseLower "only" then
      ["🫶 Menu may exclude religious dietary restrictions (pork-heavy)"]
    else []
  let r10 : List String :=
    if !jsIncludes responseLower "vegetarian" && !jsIncludes responseLower "vegan" then
      ["🫶 No vegetarian/vegan options identified - inclusivity concern"]
    else []
  r1 ++ r2 ++ r3 ++ r4 ++ r5 ++ r6 ++ r7 ++ r8 ++ r9 ++ r10

/-- Embeds `sanitizeMenuBasedOnPolicy(menu)`: per item, the ordered checks
tobacco → hard liquor → major allergen; the first matching check removes
the item and records one violation string. -/
def sanitizeMenuBasedOnPolicy (menu : List String) : List String × List String :=
  match menu with
  | [] => ([], [])
  | item :: rest =>
    let p := sanitizeMenuBasedOnPolicy rest
    if containsTobacco item then
      (p.1, ("🚫 Tobacco product removed: " ++ item) :: p.2)
    else if containsHardLiquor item then
      (p.1, ("🍷 Hard liquor removed: " ++ item) :: p.2)
    else if containsMajorAllergens item then
      (p.1, ("⚠️ Major allergen removed: " ++ item) :: p.2)
    else
      (item :: p.1, p.2)

/-- Embeds `validateInclusivity(menu)`: inclusivity issue strings. -/
def validateInclusivity (menu : List String) : List String :=
  let inclusivity := checkInclusivity menu
  let i1 : List String :=
    if !inclusivity.1 then
      ["🫶 No vegetarian/vegan options available - consider adding plant-based choices"]
    else []
  let i2 : List String :=
    if inclusivity.2 then
      ["🫶 Menu is pork-heavy - may exclude religious dietary restrictions"]
    else []
  i1 ++ i2

/-- The `'✅ Menu complies with company policy'` default reason. -/
def compliantReason : String := "✅ Menu complies with company policy"

/-- Embeds `fallbackHRStep(input)`: rule-only assessment, no trace identifiers. -/
def fallbackHRStep (input : PipelineInput) : HRStepResult :=
  let p := sanitizeMenuBasedOnPolicy input.lunchMenu
  let inclusivityIssues := validateInclusivity p.1
  let hasTobacco := input.lunchMenu.any containsTobacco
  let hasHardLiquor := input.lunchMenu.any containsHardLiquor
  let hasMajorAllergens := input.lunchMenu.any containsMajorAllergens
  let riskLevel : RiskLevel :=
    if hasTobacco || hasMajorAllergens then .high
    else if hasHardLiquor || inclusivityIssues.length > 0 then .medium
    else .low
  let uniqueReasons := dedupFirst (p.2 ++ inclusivityIssues)
  { sanitizedMenu := p.1
    riskLevel := riskLevel
    reasons := if uniqueReasons.length > 0 then uniqueReasons else [compliantReason]
    threadId := none
    runId := none }

/-! ## The advisory path of `hrStep` (backend/src/steps/hr.ts)

The Azure run-status strings checked by the code are `'in_progress'`,
`'queued'`, `'failed'` and `'cancelled'`; every other (terminal) status
string falls through to message retrieval, which the specification models
as the `succeeded` outcome.  `running` embeds `'in_progress'`. -/

inductive RunStatus where
  | queued
  | running
  | succeeded
  | failed
  | cancelled
deriving DecidableEq, Repr

/-- One message returned by `client.agents.messages.list`: its `role` and
its first content part (`some v` when the part is a text part with value
`v`; `none` when there is no content part or it is not a text part). -/
structure AgentMessage where
  role : String
  firstContentText : Option String
deriving DecidableEq, Repr

/-- The environment of one `hrStep` invocation: the configuration read from
the process environment and the outcome of each awaited external call.
`Except.error` embeds a thrown exception, which the `try/catch` of the
source routes to the fallback. -/
structure AzureEnv where
  /-- Value of `process.env.AZURE_AI_PROJECT_ENDPOINT`; `none` embeds an unset or
  empty (falsy) value. -/
  endpoint : Option String
  /-- Value of `process.env.AZURE_AI_AGENT_ID`; `none` embeds an unset or empty value. -/
  agentId : Option String
  /-- Outcome of `credential.getToken(...)`: a thrown error, or
  `tokenResponse?.token` (`none` when no token is present). -/
  getTokenResult : Except String (Option String)
  /-- Outcome of `client.agents.threads.create()`: the new thread id. -/
  threadCreate : Except String String
  /-- Outcome of `client.agents.messages.create(...)`. -/
  messageCreate : Except String Unit
  /-- Outcome of `client.agents.runs.create(...)`: the new run id. -/
  runCreate : Except String String
  /-- Outcome of the `k`-th `client.agents.runs.get(...)` (`k = 0` is the
  call before the loop; `k ≥ 1` the re-poll of the `k`-th iteration). -/
  poll : Nat → Except String RunStatus
  /-- Outcome of iterating `client.agents.messages.list(...)`. -/
  messagesList : Except String (List AgentMessage)

/-- Embeds `validateAzureCredentials`: `!!tokenResponse?.token`, with any thrown
error caught and mapped to `false`. -/
def validateAzureCredentials (env : AzureEnv) : Bool :=
  match env.getTokenResult with
  | .error _ => false
  | .ok none => false
  | .ok (some token) => token ≠ ""

/-- Embeds `maxAttempts = 60` — the poll ceiling. -/
def maxAttempts : Nat := 60

/-- The poll loop
`while ((status === 'in_progress' || status === 'queued') && attempts < maxAttempts)`,
driven structurally by `remaining = maxAttempts - attempts` so the
invariant `attempts + remaining = maxAttempts` makes `attempts < maxAttempts`
the test `remaining > 0`.  Returns the final `(runStatus, attempts)` pair,
or the first polling exception. -/
def pollLoopGo (poll : Nat → Except String RunStatus) :
    RunStatus → Nat → Nat → Except String (RunStatus × Nat)
  | status, attempts, 0 => .ok (status, attempts)
  | status, attempts, remaining + 1 =>
    if status = .running ∨ status = .queued then
      match poll (attempts + 1) with
      | .error e => .error e
      | .ok s => pollLoopGo poll s (attempts + 1) remaining
    else .ok (status, attempts)

/-- Extraction of the advisory response text from the listed messages:
filter `role === 'assistant'`, take the first, read its first content
part's text value (or `''`), and treat an empty result as absent. -/
def extractResponse (messages : List AgentMessage) : Option String :=
  let assistantMessages := messages.filter (fun m => m.role = "assistant")
  match assistantMessages with
  | [] => none
  | m :: _ =>
    let response := match m.firstContentText with
      | some v => v
      | none => ""
    if response = "" then none else some response

/-- The advisory-success result of `hrStep`: response-derived risk level
and reasons, the deterministically sanitized menu, and the thread/run
identifiers. -/
def advisoryResult (input : PipelineInput) (response threadId runId : String) :
    HRStepResult :=
  let riskLevel := parseRiskLevel response
  let aiReasons := extractRiskReasons response
  let p := sanitizeMenuBasedOnPolicy input.lunchMenu
  let inclusivityIssues := validateInclusivity p.1
  let uniqueReasons := dedupFirst (aiReasons ++ p.2 ++ inclusivityIssues)
  { sanitizedMenu := p.1
    riskLevel := riskLevel
    reasons := if uniqueReasons.length > 0 then uniqueReasons else [compliantReason]
    threadId := some threadId
    runId := some runId }

/-- The `try` block of `hrStep`: every `return` becomes `.ok`, every
thrown exception `.error`. -/
def hrStepBody (env : AzureEnv) (input : PipelineInput) :
    Except String HRStepResult :=
  if env.endpoint.isNone || env.agentId.isNone then .ok (fallbackHRStep input)
  else if !validateAzureCredentials env then .ok (fallbackHRStep input)
  else
    match env.threadCreate with
    | .error e => .error e
    | .ok threadId =>
      match env.messageCreate with
      | .error e => .error e
      | .ok _ =>
        match env.runCreate with
        | .error e => .error e
        | .ok runId =>
          match env.poll 0 with
          | .error e => .error e
          | .ok status0 =>
            match pollLoopGo env.poll status0 0 maxAttempts with
            | .error e => .error e
            | .ok (finalStatus, attempts) =>
              if attempts ≥ maxAttempts then .ok (fallbackHRStep input)
              else if finalStatus = .failed ∨ finalStatus = .cancelled then
                .ok (fallbackHRStep input)
              else
                match env.messagesList with
                | .error e => .error e
                | .ok messages =>
                  match extractResponse messages with
                  | none => .ok (fallbackHRStep input)
                  | some response =>
                    .ok (advisoryResult input response threadId runId)

/-- Embeds `hrStep`: the `try` body with its `catch` that absorbs any exception
into the fallback. -/
def hrStep (env : AzureEnv) (input : PipelineInput) : HRStepResult :=
  match hrStepBody env input with
  | .ok r => r
  | .error _ => fallbackHRStep input

/-! ## Employee step (backend/src/steps/employee.ts) -/

/-- Embeds `employeeStep(input)`: trim each entry, drop entries that become
empty, deduplicate keeping first occurrences (`Array.from(new Set(...))`). -/
def employeeStep (input : PipelineInput) : EmployeeStepResult :=
  { normalizedEmployees :=
      dedupFirst ((input.employees.map jsTrim).filter
        (fun emp => emp.length > 0)) }

/-! ## Finance step (backend/src/steps/finance.ts) -/

/-- The configuration the finance step reads from the process environment,
after `Number(...)` coercion: `none` embeds `NaN` (unset or non-numeric
variable). -/
structure FinanceConfig where
  lunchBudgetPerPerson : Option ℚ
  headcountParam : Option ℚ

/-- Embeds `Number(process.env.LUNCH_BUDGET_PER_PERSON) || 15`: `NaN` and `0` are
falsy and fall back to `15`. -/
def budgetPerPersonOf (cfg : FinanceConfig) : ℚ :=
  match cfg.lunchBudgetPerPerson with
  | none => 15
  | some q => if q = 0 then 15 else q

/-- Embeds `financeStep(employeeResult)`: totals and the budget comparison.
`totalBudget = Number(process.env.HEADCOUNT) * rate` is `none` (`NaN`)
when `HEADCOUNT` is unset, and the comparison `totalCost <= NaN` is
`false`. -/
def financeStep (cfg : FinanceConfig) (employeeResult : EmployeeStepResult) :
    FinanceStepResult :=
  let headcount : Nat := employeeResult.normalizedEmployees.length
  let budgetPerPerson := budgetPerPersonOf cfg
  let totalBudget : Option ℚ := cfg.headcountParam.map (fun h => h * budgetPerPerson)
  let totalCost : ℚ := headcount * budgetPerPerson
  let withinBudget : Bool :=
    match totalBudget with
    | none => false
    | some b => totalCost ≤ b
  { totalCost := totalCost
    budget := totalBudget
    withinBudget := withinBudget
    costPerPerson := budgetPerPerson }

/-! ## Manager step (backend/src/steps/manager.ts) -/

/-- Rendering of a JavaScript number in a template literal, up to the exact
digit string (`NaN` prints as `"NaN"`). -/
def showJSNum : Option ℚ → String
  | none => "NaN"
  | some q => if q.den = 1 then toString q.num else toString q

/-- Embeds `managerStep(hrResult, financeResult)`: fixed first-match-wins
precedence high risk → over budget → medium risk → default approval. -/
def managerStep (hrResult : HRStepResult) (financeResult : FinanceStepResult) :
    ManagerStepResult :=
  let isHighRisk := hrResult.riskLevel = .high
  let overBudget := !financeResult.withinBudget
  if isHighRisk then
    { approved := false
      message := "BLOCKED: High risk level detected in lunch menu. Reasons: " ++
        String.intercalate ", " hrResult.reasons
      finalDecision := "Lunch order rejected due to high health/safety risk" }
  else if overBudget then
    { approved := false
      message := "BLOCKED: Budget exceeded. Total cost: $" ++
        showJSNum (some financeResult.totalCost) ++ ", Budget: $" ++
        showJSNum financeResult.budget
      finalDecision := "Lunch order rejected due to budget constraints" }
  else if hrResult.riskLevel = .medium then
    { approved := true
      message := "APPROVED with caution: Medium risk detected. " ++
        String.intercalate ", " hrResult.reasons ++ ". Please review sanitized menu."
      finalDecision :=
        "Lunch order approved with caution - please review the sanitized menu" }
  else
    { approved := true
      message := "APPROVED: All checks passed. Cost: $" ++
        showJSNum (some financeResult.totalCost) ++ " within budget of $" ++
        showJSNum financeResult.budget
      finalDecision := "Lunch order fully approved" }

/-! ## Helper lemmas -/

/-- First-match removal reason of the sanitizer, in the source's fixed
check order prohibited substance → restricted alcohol → major allergen;
`none` when the item passes all checks and is kept. -/
def removalReason (item : String) : Option String :=
  if containsTobacco item then some ("🚫 Tobacco product removed: " ++ item)
  else if containsHardLiquor item then some ("🍷 Hard liquor removed: " ++ item)
  else if containsMajorAllergens item then some ("⚠️ Major allergen removed: " ++ item)
  else none

theorem sanitize_fst_eq_filter (menu : List String) :
    (sanitizeMenuBasedOnPolicy menu).1 =
      menu.filter (fun item => (removalReason item).isNone) := by
  induction menu with
  | nil => rfl
  | cons item rest ih =>
    simp only [sanitizeMenuBasedOnPolicy, List.filter_cons]
    by_cases h1 : containsTobacco item
    · have hr : (removalReason item).isNone = false := by simp [removalReason, h1]
      simp [h1, hr, ih]
    · by_cases h2 : containsHardLiquor item
      · have hr : (removalReason item).isNone = false := by simp [removalReason, h1, h2]
        simp [h1, h2, hr, ih]
      · by_cases h3 : containsMajorAllergens item
        · have hr : (removalReason item).isNone = false := by
            simp [removalReason, h1, h2, h3]
          simp [h1, h2, h3, hr, ih]
        · have hr : (removalReason item).isNone = true := by
            simp [removalReason, h1, h2, h3]
          simp [h1, h2, h3, hr, ih]

theorem sanitize_snd_eq_filterMap (menu : List String) :
    (sanitizeMenuBasedOnPolicy menu).2 = menu.filterMap removalReason := by
  induction menu with
  | nil => rfl
  | cons item rest ih =>
    simp only [sanitizeMenuBasedOnPolicy, List.filterMap_cons]
    by_cases h1 : containsTobacco item
    · have hr : removalReason item = some ("🚫 Tobacco product removed: " ++ item) := by
        simp [removalReason, h1]
      simp [h1, hr, ih]
    · by_cases h2 : containsHardLiquor item
      · have hr : removalReason item = some ("🍷 Hard liquor removed: " ++ item) := by
          simp [removalReason, h1, h2]
        simp [h1, h2, hr, ih]
      · by_cases h3 : containsMajorAllergens item
        · have hr : removalReason item = some ("⚠️ Major allergen removed: " ++ item) := by
            simp [removalReason, h1, h2, h3]
          simp [h1, h2, h3, hr, ih]
        · have hr : removalReason item = none := by
            simp [removalReason, h1, h2, h3]
          simp [h1, h2, h3, hr, ih]

theorem dedupFirstGo_sublist (l : List String) :
    ∀ seen : List String, (dedupFirstGo seen l).Sublist l := by
  induction l with
  | nil => intro seen; simp [dedupFirstGo]
  | cons x xs ih =>
    intro seen
    simp only [dedupFirstGo]
    by_cases h : x ∈ seen
    · simp only [h, if_pos]
      exact (ih seen).trans (List.sublist_cons_self x xs)
    · simp only [h, if_neg, not_false_iff]
      exact (ih (x :: seen)).cons₂ x

theorem mem_dedupFirstGo (a : String) (l : List String) :
    ∀ seen : List String, a ∈ dedupFirstGo seen l ↔ a ∈ l ∧ a ∉ seen := by
  induction l with
  | nil => intro seen; simp [dedupFirstGo]
  | cons x xs ih =>
    intro seen
    simp only [dedupFirstGo]
    by_cases h : x ∈ seen
    · rw [if_pos h, ih seen]
      constructor
      · rintro ⟨ha, hs⟩
        exact ⟨List.mem_cons_of_mem _ ha, hs⟩
      · rintro ⟨hmem, hs⟩
        rcases List.mem_cons.mp hmem with rfl | ha
        · exact absurd h hs
        · exact ⟨ha, hs⟩
    · rw [if_neg h]
      constructor
      · intro hmem
        rcases List.mem_cons.mp hmem with rfl | hmem
        · exact ⟨List.mem_cons_self _ _, h⟩
        · obtain ⟨ha, hs⟩ := (ih (x :: seen)).mp hmem
          exact ⟨List.mem_cons_of_mem _ ha, fun hc => hs (List.mem_cons_of_mem _ hc)⟩
      · rintro ⟨hmem, hs⟩
        rcases List.mem_cons.mp hmem with rfl | ha
        · exact List.mem_cons_self _ _
        · rcases eq_or_ne a x with rfl | hax
          · exact List.mem_cons_self _ _
          · exact List.mem_cons_of_mem _
              ((ih (x :: seen)).mpr
                ⟨ha, fun hc => (List.mem_cons.mp hc).elim hax hs⟩)

theorem dedupFirstGo_nodup (l : List String) :
    ∀ seen : List String, (dedupFirstGo seen l).Nodup := by
  induction l with
  | nil => intro seen; simp [dedupFirstGo]
  | cons x xs ih =>
    intro seen
    simp only [dedupFirstGo]
    by_cases h : x ∈ seen
    · simpa [h] using ih seen
    · simp only [h, if_neg, not_false_iff, List.nodup_cons]
      refine ⟨fun hc => ?_, ih (x :: seen)⟩
      exact ((mem_dedupFirstGo x xs (x :: seen)).mp hc).2 (List.mem_cons_self x seen)

theorem dedupFirstGo_pairwise (l : List String) :
    ∀ seen : List String,
      (dedupFirstGo seen l).Pairwise (fun a b => l.indexOf a < l.indexOf b) := by
  induction l with
  | nil => intro seen; simp [dedupFirstGo]
  | cons x xs ih =>
    intro seen
    simp only [dedupFirstGo]
    by_cases h : x ∈ seen
    · simp only [h, if_pos]
      refine (ih seen).imp_of_mem ?_
      intro a b ha hb hab
      have hax : a ≠ x := fun hc =>
        ((mem_dedupFirstGo a xs seen).mp ha).2 (hc ▸ h)
      have hbx : b ≠ x := fun hc =>
        ((mem_dedupFirstGo b xs seen).mp hb).2 (hc ▸ h)
      rw [List.indexOf_cons_ne _ (Ne.symm hax), List.indexOf_cons_ne _ (Ne.symm hbx)]
      exact Nat.succ_lt_succ hab
    · simp only [h, if_neg, not_false_iff]
      refine List.Pairwise.cons ?_ ?_
      · intro b hb
        have hbx : b ≠ x := fun hc =>
          ((mem_dedupFirstGo b xs (x :: seen)).mp hb).2 (hc ▸ List.mem_cons_self x seen)
        rw [List.indexOf_cons_self, List.indexOf_cons_ne _ (Ne.symm hbx)]
        exact Nat.succ_pos _
      · refine (ih (x :: seen)).imp_of_mem ?_
        intro a b ha hb hab
        have hax : a ≠ x := fun hc =>
          ((mem_dedupFirstGo a xs (x :: seen)).mp ha).2 (hc ▸ List.mem_cons_self x seen)
        have hbx : b ≠ x := fun hc =>
          ((mem_dedupFirstGo b xs (x :: seen)).mp hb).2 (hc ▸ List.mem_cons_self x seen)
        rw [List.indexOf_cons_ne _ (Ne.symm hax), List.indexOf_cons_ne _ (Ne.symm hbx)]
        exact Nat.succ_lt_succ hab

/-- Every branch of `hrStep` returns either exactly the fallback result or
the advisory-success result built from the response text and the created
thread/run identifiers. -/
theorem hrStep_fallback_or_advisory (env : AzureEnv) (input : PipelineInput) :
    hrStep env input = fallbackHRStep input ∨
    ∃ response threadId runId,
      env.threadCreate = .ok threadId ∧ env.runCreate = .ok runId ∧
      hrStep env input = advisoryResult input response threadId runId := by
  unfold hrStep hrStepBody
  by_cases h1 : (env.endpoint.isNone || env.agentId.isNone) = true
  · left; rw [if_pos h1]
  · rw [if_neg h1]
    by_cases h2 : (!validateAzureCredentials env) = true
    · left; rw [if_pos h2]
    · rw [if_neg h2]
      rcases ht : env.threadCreate with e | threadId
      · left; rfl
      · rcases hm : env.messageCreate with e | u
        · left; rfl
        · rcases hr : env.runCreate with e | runId
          · left; rfl
          · rcases hp0 : env.poll 0 with e | status0
            · left; rfl
            · dsimp only
              rcases hloop : pollLoopGo env.poll status0 0 maxAttempts with e | p
              · left; rfl
              · obtain ⟨finalStatus, attempts⟩ := p
                dsimp only
                by_cases ha : attempts ≥ maxAttempts
                · left; rw [if_pos ha]
                · rw [if_neg ha]
                  by_cases hf : finalStatus = RunStatus.failed ∨
                      finalStatus = RunStatus.cancelled
                  · left; rw [if_pos hf]
                  · rw [if_neg hf]
                    rcases hml : env.messagesList with e | messages
                    · left; rfl
                    · dsimp only
                      rcases hresp : extractResponse messages with _ | response
                      · left; rfl
                      · right
                        exact ⟨response, threadId, runId, rfl, rfl, rfl⟩

/-! ## Claim theorems -/

/-- C1: `managerStep` applies fixed first-match-wins precedence over
`(riskLevel, withinBudget)`: high risk always rejects regardless of budget;
otherwise over-budget rejects; otherwise medium risk approves with the
caution decision; otherwise (low risk, within budget) fully approves —
with no effect other than producing the decision record. -/
theorem managerStep_precedence (hrResult : HRStepResult)
    (financeResult : FinanceStepResult) :
    (managerStep hrResult financeResult).approved =
      (!(hrResult.riskLevel == RiskLevel.high) && financeResult.withinBudget) ∧
    (managerStep hrResult financeResult).finalDecision =
      (if hrResult.riskLevel = RiskLevel.high then
        "Lunch order rejected due to high health/safety risk"
       else if financeResult.withinBudget = false then
        "Lunch order rejected due to budget constraints"
       else if hrResult.riskLevel = RiskLevel.medium then
        "Lunch order approved with caution - please review the sanitized menu"
       else "Lunch order fully approved") := by
  obtain ⟨sm, rl, rs, t, r⟩ := hrResult
  obtain ⟨tc, b, wb, cpp⟩ := financeResult
  cases rl <;> cases wb <;> simp [managerStep]

/-- C6: the sanitizer output is an order-preserving subsequence of the
input (original casing kept), consisting exactly of the items with no
removal reason; the recorded violations are exactly one reason per removed
item, in input order, attributed by the first matching check (substance →
alcohol → allergen); kept items and reasons together account for the whole
input, so each removed item has exactly one reason. -/
theorem sanitizeMenu_structure (menu : List String) :
    (sanitizeMenuBasedOnPolicy menu).1.Sublist menu ∧
    (sanitizeMenuBasedOnPolicy menu).1 =
      menu.filter (fun item => (removalReason item).isNone) ∧
    (sanitizeMenuBasedOnPolicy menu).2 = menu.filterMap removalReason ∧
    (sanitizeMenuBasedOnPolicy menu).1.length +
      (sanitizeMenuBasedOnPolicy menu).2.length = menu.length := by
  refine ⟨?_, sanitize_fst_eq_filter menu, sanitize_snd_eq_filterMap menu, ?_⟩
  · rw [sanitize_fst_eq_filter]
    exact List.filter_sublist menu
  · rw [sanitize_fst_eq_filter, sanitize_snd_eq_filterMap]
    induction menu with
    | nil => rfl
    | cons item rest ih =>
      rcases hr : removalReason item with _ | v
      · simp [List.filter_cons, List.filterMap_cons, hr]
        omega
      · simp [List.filter_cons, List.filterMap_cons, hr]
        omega

/-- C10 (implicit invariant): no item matching any of the three policy
predicates survives sanitization — every item of the sanitized menu
returned by `sanitizeMenuBasedOnPolicy`, and hence by `hrStep` on either
the advisory or the fallback branch, satisfies none of `containsTobacco`,
`containsHardLiquor`, `containsMajorAllergens`. -/
theorem sanitizedMenu_policy_clean (env : AzureEnv) (input : PipelineInput)
    (item : String)
    (h : item ∈ (sanitizeMenuBasedOnPolicy input.lunchMenu).1 ∨
         item ∈ (hrStep env input).sanitizedMenu) :
    containsTobacco item = false ∧ containsHardLiquor item = false ∧
    containsMajorAllergens item = false := by
  have key : ∀ menu : List String, item ∈ (sanitizeMenuBasedOnPolicy menu).1 →
      containsTobacco item = false ∧ containsHardLiquor item = false ∧
      containsMajorAllergens item = false := by
    intro menu hm
    rw [sanitize_fst_eq_filter] at hm
    have hnone := List.of_mem_filter hm
    by_cases h1 : containsTobacco item <;> by_cases h2 : containsHardLiquor item <;>
      by_cases h3 : containsMajorAllergens item <;>
      simp_all [removalReason]
  rcases h with h | h
  · exact key _ h
  · have hsan : (hrStep env input).sanitizedMenu =
        (sanitizeMenuBasedOnPolicy input.lunchMenu).1 := by
      rcases hrStep_fallback_or_advisory env input with hf | ⟨resp, tid, rid, _, _, hadv⟩
      · rw [hf]; rfl
      · rw [hadv]; rfl
    exact key _ (hsan ▸ h)

/-- C10 witness: the kept item of a concrete sanitized menu satisfies none
of the three policy predicates. -/
theorem sanitizedMenu_policy_clean_witness :
    containsTobacco "Quinoa bowl" = false ∧
    containsHardLiquor "Quinoa bowl" = false ∧
    containsMajorAllergens "Quinoa bowl" = false :=
  sanitizedMenu_policy_clean
    ⟨none, none, Except.ok none, Except.ok "", Except.ok (), Except.ok "",
      fun _ => Except.ok RunStatus.succeeded, Except.ok []⟩
    ⟨[], ["Peanut butter cookies", "Quinoa bowl"]⟩ "Quinoa bowl"
    (Or.inl (by decide))

/-- C8 counterexample: the claim quantifies over every configuration, but a
configuration whose `HEADCOUNT` parses to a negative number (here `-1`)
makes the computed budget limit negative, so a normalized headcount of
zero yields `totalCost = 0` yet `withinBudget = false` — `financeStep`
does not report "within budget" for every configuration. -/
theorem financeStep_zero_headcount_counterexample :
    (financeStep ⟨some 15, some (-1)⟩ ⟨[]⟩).totalCost = 0 ∧
    (financeStep ⟨some 15, some (-1)⟩ ⟨[]⟩).withinBudget = false := by
  constructor
  · simp [financeStep]
  · simp only [financeStep, budgetPerPersonOf, Option.map_some']
    norm_num

/-- C8 (amended): `financeStep` has no error conditions (it is a total
function of its configuration and input), and for every configuration
whose computed budget limit is a number `b ≥ 0`, a normalized headcount
of zero yields `totalCost = 0` and `withinBudget = true`.  (A negative
`HEADCOUNT`, an unset `HEADCOUNT` — a `NaN` budget — or a negative rate
with positive `HEADCOUNT` all make the budget limit negative or `NaN`,
and then zero headcount is reported over budget.) -/
theorem financeStep_zero_headcount (cfg : FinanceConfig)
    (emp : EmployeeStepResult) (b : ℚ)
    (h0 : emp.normalizedEmployees = [])
    (hb : (financeStep cfg emp).budget = some b) (hbn : 0 ≤ b) :
    (financeStep cfg emp).totalCost = 0 ∧
    (financeStep cfg emp).withinBudget = true := by
  rcases hcp : cfg.headcountParam with _ | h
  · rw [show (financeStep cfg emp).budget =
        cfg.headcountParam.map (fun h => h * budgetPerPersonOf cfg) from rfl,
      hcp] at hb
    exact absurd hb (by simp)
  · have hb' : h * budgetPerPersonOf cfg = b := by
      have := hb
      rw [show (financeStep cfg emp).budget =
          cfg.headcountParam.map (fun h => h * budgetPerPersonOf cfg) from rfl,
        hcp] at this
      simpa using this
    constructor
    · simp [financeStep, h0]
    · simp only [financeStep, hcp, h0, Option.map_some', List.length_nil,
        Nat.cast_zero, zero_mul]
      rw [hb']
      exact decide_eq_true hbn

/-- C8 witness: a configuration with rate 15 and headcount parameter 10
(budget limit 150) and an empty normalized employee list. -/
theorem financeStep_zero_headcount_witness :
    (financeStep ⟨some 15, some 10⟩ ⟨[]⟩).totalCost = 0 ∧
    (financeStep ⟨some 15, some 10⟩ ⟨[]⟩).withinBudget = true :=
  financeStep_zero_headcount ⟨some 15, some 10⟩ ⟨[]⟩ ((10 : ℚ) * 15) rfl
    (by simp [financeStep, budgetPerPersonOf]) (by norm_num)

/-- C9: with a fixed configuration whose budget limit is the number `b`
and whose per-person rate is positive, `withinBudget` is false exactly
when `headcount * rate` exceeds `b`, and `withinBudget` is antitone in the
headcount: a larger headcount being within budget forces every smaller
headcount to be within budget (so growing the headcount can only switch
`withinBudget` from true to false, never back). -/
theorem financeStep_budget_iff_monotone (cfg : FinanceConfig) (b : ℚ)
    (emp emp' : EmployeeStepResult)
    (hb : (financeStep cfg emp).budget = some b)
    (hpos : 0 < budgetPerPersonOf cfg) :
    ((financeStep cfg emp).withinBudget = false ↔
      b < emp.normalizedEmployees.length * budgetPerPersonOf cfg) ∧
    (emp.normalizedEmployees.length ≤ emp'.normalizedEmployees.length →
      (financeStep cfg emp').withinBudget = true →
      (financeStep cfg emp).withinBudget = true) := by
  rcases hcp : cfg.headcountParam with _ | h
  · rw [show (financeStep cfg emp).budget =
        cfg.headcountParam.map (fun x => x * budgetPerPersonOf cfg) from rfl,
      hcp] at hb
    exact absurd hb (by simp)
  · have hb' : h * budgetPerPersonOf cfg = b := by
      have := hb
      rw [show (financeStep cfg emp).budget =
          cfg.headcountParam.map (fun x => x * budgetPerPersonOf cfg) from rfl,
        hcp] at this
      simpa using this
    have hwb : ∀ e : EmployeeStepResult, (financeStep cfg e).withinBudget =
        decide ((e.normalizedEmployees.length : ℚ) * budgetPerPersonOf cfg ≤ b) := by
      intro e
      simp only [financeStep, hcp, Option.map_some', hb']
    constructor
    · rw [hwb emp]
      constructor
      · intro hfalse
        have := of_decide_eq_false hfalse
        exact lt_of_not_ge this
      · intro hlt
        exact decide_eq_false (not_le_of_gt hlt)
    · intro hle htrue
      rw [hwb emp'] at htrue
      rw [hwb emp]
      have h' := of_decide_eq_true htrue
      refine decide_eq_true (le_trans ?_ h')
      exact mul_le_mul_of_nonneg_right (by exact_mod_cast hle) (le_of_lt hpos)

/-- C9 witness: rate 15, headcount parameter 10 (budget 150); one employee
is within budget because two employees are. -/
theorem financeStep_budget_iff_monotone_witness :
    (financeStep ⟨some 15, some 10⟩ ⟨["a"]⟩).withinBudget = true :=
  (financeStep_budget_iff_monotone ⟨some 15, some 10⟩ ((10 : ℚ) * 15)
      ⟨["a"]⟩ ⟨["a", "b"]⟩
      (by simp [financeStep, budgetPerPersonOf])
      (by norm_num [budgetPerPersonOf])).2
    (by simp)
    (by simp only [financeStep, budgetPerPersonOf, Option.map_some']
        norm_num)

/-- The rule-only risk classification exactly as the specification words
it (the §4.6 fallback): `high` if any raw item is a prohibited substance
or major allergen; else `medium` if any raw item is restricted alcohol or
inclusivity issues exist on the sanitized menu; else `low`.  Stated
separately from `fallbackHRStep` so that fallback equivalence compares the
code's fallback with the specification's classification. -/
def ruleOnlyRisk (menu : List String) : RiskLevel :=
  if menu.any containsTobacco || menu.any containsMajorAllergens then .high
  else if menu.any containsHardLiquor ||
      !(validateInclusivity (sanitizeMenuBasedOnPolicy menu).1).isEmpty then .medium
  else .low

/-- C2: whenever the advisory path is not used — no endpoint or agent id
configured, or credential validation fails — the HR step result equals
the rule-only fallback, the fallback's risk level is the specification's
rule-only classification of the menu, and the thread/run identifier
fields are absent. -/
theorem hrStep_fallback_equivalence (env : AzureEnv) (input : PipelineInput)
    (h : env.endpoint = none ∨ env.agentId = none ∨
         validateAzureCredentials env = false) :
    hrStep env input = fallbackHRStep input ∧
    (fallbackHRStep input).riskLevel = ruleOnlyRisk input.lunchMenu ∧
    (hrStep env input).threadId = none ∧ (hrStep env input).runId = none := by
  have hfb : hrStep env input = fallbackHRStep input := by
    unfold hrStep hrStepBody
    rcases h with h | h | h
    · rw [if_pos (by simp [h])]
    · rw [if_pos (by simp [h])]
    · by_cases he : (env.endpoint.isNone || env.agentId.isNone) = true
      · rw [if_pos he]
      · rw [if_neg he, if_pos (by simp [h])]
  refine ⟨hfb, ?_, by rw [hfb]; rfl, by rw [hfb]; rfl⟩
  by_cases hT : (input.lunchMenu.any containsTobacco ||
      input.lunchMenu.any containsMajorAllergens) = true
  · simp [fallbackHRStep, ruleOnlyRisk, hT]
  · rcases hl : validateInclusivity (sanitizeMenuBasedOnPolicy input.lunchMenu).1
      with _ | ⟨x, xs⟩
    · simp [fallbackHRStep, ruleOnlyRisk, hT, hl]
    · simp [fallbackHRStep, ruleOnlyRisk, hT, hl]

/-- C2 witness: an unconfigured environment and a concrete menu. -/
theorem hrStep_fallback_equivalence_witness :
    hrStep
        ⟨none, none, Except.ok none, Except.ok "", Except.ok (), Except.ok "",
          fun _ => Except.ok RunStatus.succeeded, Except.ok []⟩
        ⟨[], ["Peanut butter cookies", "Salad"]⟩ =
      fallbackHRStep ⟨[], ["Peanut butter cookies", "Salad"]⟩ ∧
    (fallbackHRStep ⟨[], ["Peanut butter cookies", "Salad"]⟩).riskLevel =
      ruleOnlyRisk ["Peanut butter cookies", "Salad"] ∧
    (hrStep
        ⟨none, none, Except.ok none, Except.ok "", Except.ok (), Except.ok "",
          fun _ => Except.ok RunStatus.succeeded, Except.ok []⟩
        ⟨[], ["Peanut butter cookies", "Salad"]⟩).threadId = none ∧
    (hrStep
        ⟨none, none, Except.ok none, Except.ok "", Except.ok (), Except.ok "",
          fun _ => Except.ok RunStatus.succeeded, Except.ok []⟩
        ⟨[], ["Peanut butter cookies", "Salad"]⟩).runId = none :=
  hrStep_fallback_equivalence _ _ (Or.inl rfl)

/-- C5: `hrStep` never surfaces an error to its caller: for every
environment outcome (configuration absence, credential failure,
submit/poll exception, failed or cancelled run, timeout, empty response,
or success) and every input it returns a complete result — either exactly
the deterministic fallback, whose only observable trace is the absence of
the thread/run identifiers, or the advisory-success result, which carries
both identifiers. -/
theorem hrStep_never_raises (env : AzureEnv) (input : PipelineInput) :
    (hrStep env input = fallbackHRStep input ∧
      (hrStep env input).threadId = none ∧ (hrStep env input).runId = none) ∨
    ((hrStep env input).threadId.isSome = true ∧
      (hrStep env input).runId.isSome = true) := by
  rcases hrStep_fallback_or_advisory env input with hf | ⟨resp, tid, rid, _, _, hadv⟩
  · exact Or.inl ⟨hf, by rw [hf]; rfl, by rw [hf]; rfl⟩
  · exact Or.inr ⟨by rw [hadv]; rfl, by rw [hadv]; rfl⟩

/-- Poll-ceiling boundary environment: configured and credentialed, the
run stays `queued` for the first 60 status reads and the 60th re-poll
returns the terminal success status, with an extractable assistant
response available. -/
def timeoutBoundaryEnv : AzureEnv :=
  { endpoint := some "https://advisory.example"
    agentId := some "agent-1"
    getTokenResult := Except.ok (some "token")
    threadCreate := Except.ok "thread-1"
    messageCreate := Except.ok ()
    runCreate := Except.ok "run-1"
    poll := fun k =>
      Except.ok (if k < 60 then RunStatus.queued else RunStatus.succeeded)
    messagesList := Except.ok [⟨"assistant", some "low risk"⟩] }

/-- C4 counterexample: under `timeoutBoundaryEnv` the run reaches the
succeeded terminal status — with extractable response text — on the 60th
poll attempt, i.e. within the 60-attempt ceiling, and is no longer
queued/running when the loop exits; yet `hrStep` takes the timeout
fallback (`attempts >= maxAttempts` is checked before the final status),
returning the fallback result without thread/run identifiers instead of
the advisory-derived result. -/
theorem hrStep_poll_counterexample :
    pollLoopGo timeoutBoundaryEnv.poll RunStatus.queued 0 maxAttempts =
      Except.ok (RunStatus.succeeded, 60) ∧
    timeoutBoundaryEnv.poll 0 = Except.ok RunStatus.queued ∧
    extractResponse [⟨"assistant", some "low risk"⟩] = some "low risk" ∧
    hrStep timeoutBoundaryEnv ⟨[], ["Salad"]⟩ = fallbackHRStep ⟨[], ["Salad"]⟩ ∧
    (hrStep timeoutBoundaryEnv ⟨[], ["Salad"]⟩).threadId = none :=
  ⟨rfl, rfl, by decide, by decide, by decide⟩

/-- C4 (amended): under a configured, credentialed environment with all
submissions succeeding, (1) if the poll loop ends with a non-failed,
non-cancelled status in strictly fewer than 60 attempts and the response
text is extractable, `hrStep` returns the advisory-derived result carrying
the thread and run identifiers; (2) the timeout fallback is taken exactly
when the loop exits with `attempts = 60`, even if the final polled status
is the terminal success status. -/
theorem hrStep_poll_outcomes (env : AzureEnv) (input : PipelineInput)
    (threadId runId : String) (status0 : RunStatus)
    (hep : env.endpoint.isSome = true) (hag : env.agentId.isSome = true)
    (hcred : validateAzureCredentials env = true)
    (ht : env.threadCreate = Except.ok threadId)
    (hm : env.messageCreate = Except.ok ())
    (hrc : env.runCreate = Except.ok runId)
    (hp0 : env.poll 0 = Except.ok status0) :
    (∀ (finalStatus : RunStatus) (attempts : Nat)
        (messages : List AgentMessage) (response : String),
        pollLoopGo env.poll status0 0 maxAttempts =
          Except.ok (finalStatus, attempts) →
        attempts < maxAttempts →
        finalStatus ≠ RunStatus.failed → finalStatus ≠ RunStatus.cancelled →
        env.messagesList = Except.ok messages →
        extractResponse messages = some response →
        hrStep env input = advisoryResult input response threadId runId ∧
        (hrStep env input).threadId = some threadId ∧
        (hrStep env input).runId = some runId) ∧
    (∀ finalStatus : RunStatus,
        pollLoopGo env.poll status0 0 maxAttempts =
          Except.ok (finalStatus, maxAttempts) →
        hrStep env input = fallbackHRStep input ∧
        (hrStep env input).threadId = none) := by
  obtain ⟨ev, hev⟩ := Option.isSome_iff_exists.mp hep
  obtain ⟨av, hav⟩ := Option.isSome_iff_exists.mp hag
  constructor
  · intro finalStatus attempts messages response hloop hlt hnf hnc hml hresp
    have hres : hrStep env input = advisoryResult input response threadId runId := by
      unfold hrStep hrStepBody
      rw [if_neg (by simp [hev, hav]), if_neg (by simp [hcred]), ht]
      dsimp only
      rw [hm]
      dsimp only
      rw [hrc]
      dsimp only
      rw [hp0]
      dsimp only
      rw [hloop]
      dsimp only
      rw [if_neg (by omega), if_neg (by simp [hnf, hnc]), hml]
      dsimp only
      rw [hresp]
    exact ⟨hres, by rw [hres]; rfl, by rw [hres]; rfl⟩
  · intro finalStatus hloop
    have hres : hrStep env input = fallbackHRStep input := by
      unfold hrStep hrStepBody
      rw [if_neg (by simp [hev, hav]), if_neg (by simp [hcred]), ht]
      dsimp only
      rw [hm]
      dsimp only
      rw [hrc]
      dsimp only
      rw [hp0]
      dsimp only
      rw [hloop]
      dsimp only
      rw [if_pos (le_refl maxAttempts)]
    exact ⟨hres, by rw [hres]; rfl⟩

/-- Immediate-success environment: configured and credentialed, the first
status read already reports the terminal success status. -/
def promptSuccessEnv : AzureEnv :=
  { endpoint := some "https://advisory.example"
    agentId := some "agent-1"
    getTokenResult := Except.ok (some "token")
    threadCreate := Except.ok "thread-1"
    messageCreate := Except.ok ()
    runCreate := Except.ok "run-1"
    poll := fun _ => Except.ok RunStatus.succeeded
    messagesList := Except.ok [⟨"assistant", some "high risk: peanut"⟩] }

/-- C4 witness: the success branch at an immediately-succeeding run and
the timeout branch at the poll-ceiling boundary environment. -/
theorem hrStep_poll_outcomes_witness :
    (hrStep promptSuccessEnv ⟨[], ["Salad"]⟩ =
        advisoryResult ⟨[], ["Salad"]⟩ "high risk: peanut" "thread-1" "run-1" ∧
      (hrStep promptSuccessEnv ⟨[], ["Salad"]⟩).threadId = some "thread-1" ∧
      (hrStep promptSuccessEnv ⟨[], ["Salad"]⟩).runId = some "run-1") ∧
    (hrStep timeoutBoundaryEnv ⟨[], ["Salad"]⟩ = fallbackHRStep ⟨[], ["Salad"]⟩ ∧
      (hrStep timeoutBoundaryEnv ⟨[], ["Salad"]⟩).threadId = none) :=
  ⟨(hrStep_poll_outcomes promptSuccessEnv ⟨[], ["Salad"]⟩ "thread-1" "run-1"
        RunStatus.succeeded rfl rfl (by decide) rfl rfl rfl rfl).1
      RunStatus.succeeded 0 [⟨"assistant", some "high risk: peanut"⟩]
      "high risk: peanut" rfl (by decide) (by decide) (by decide) rfl (by decide),
   (hrStep_poll_outcomes timeoutBoundaryEnv ⟨[], ["Salad"]⟩ "thread-1" "run-1"
        RunStatus.queued rfl rfl (by decide) rfl rfl rfl rfl).2
      RunStatus.succeeded rfl⟩

/-- C3 counterexample: `parseRiskLevel` promotes only the literal keywords
tobacco / hard liquor / peanut / shellfish / high risk / dangerous.  A
response containing the major-allergen keyword "tree nut" (which
`containsMajorAllergens` recognises) is classified `low`, and a response
containing the prohibited-substance keyword "cigar" (which
`containsTobacco` recognises) is classified `low` — both below `high`,
refuting the claim for advisory responses. -/
theorem parseRiskLevel_counterexample :
    containsMajorAllergens "contains tree nut" = true ∧
    parseRiskLevel "contains tree nut" = RiskLevel.low ∧
    containsTobacco "cigar platter" = true ∧
    parseRiskLevel "cigar platter" = RiskLevel.low := by decide

/-- C3 (amended): a response containing any of the classifier's high-risk
keywords — tobacco, hard liquor, peanut, shellfish, "high risk",
dangerous — is never classified below `high` (responses whose only
allergen/substance signal is "tree nut" or a non-"tobacco" tobacco-family
word may classify lower); a response not classified high that mentions
inclusivity is classified `medium`, never `low`; a menu containing any
prohibited substance or major allergen is never classified below `high`
by the rule fallback; and a menu containing only an inclusivity gap is
classified `medium`, never `low`. -/
theorem riskClassification_precedence (response : String)
    (input : PipelineInput) :
    ((jsIncludes (jsToLower response) "tobacco" = true ∨
      jsIncludes (jsToLower response) "hard liquor" = true ∨
      jsIncludes (jsToLower response) "peanut" = true ∨
      jsIncludes (jsToLower response) "shellfish" = true ∨
      jsIncludes (jsToLower response) "high risk" = true ∨
      jsIncludes (jsToLower response) "dangerous" = true) →
      parseRiskLevel response = RiskLevel.high) ∧
    (parseRiskLevel response ≠ RiskLevel.high →
      jsIncludes (jsToLower response) "inclusivity" = true →
      parseRiskLevel response = RiskLevel.medium) ∧
    ((input.lunchMenu.any containsTobacco = true ∨
      input.lunchMenu.any containsMajorAllergens = true) →
      (fallbackHRStep input).riskLevel = RiskLevel.high) ∧
    (input.lunchMenu.any containsTobacco = false →
      input.lunchMenu.any containsMajorAllergens = false →
      input.lunchMenu.any containsHardLiquor = false →
      validateInclusivity (sanitizeMenuBasedOnPolicy input.lunchMenu).1 ≠ [] →
      (fallbackHRStep input).riskLevel = RiskLevel.medium) := by
  refine ⟨?_, ?_, ?_, ?_⟩
  · intro h
    unfold parseRiskLevel
    rcases h with h | h | h | h | h | h <;> rw [if_pos (by simp [h])]
  · intro hne hinc
    by_cases hc : (jsIncludes (jsToLower response) "tobacco" ||
        jsIncludes (jsToLower response) "hard liquor" ||
        jsIncludes (jsToLower response) "peanut" ||
        jsIncludes (jsToLower response) "shellfish" ||
        jsIncludes (jsToLower response) "high risk" ||
        jsIncludes (jsToLower response) "dangerous") = true
    · exact absurd (by unfold parseRiskLevel; rw [if_pos hc]) hne
    · unfold parseRiskLevel
      rw [if_neg hc, if_pos (by simp [hinc])]
  · intro h
    rcases h with h | h <;> simp [fallbackHRStep, h]
  · intro hT hA hL hI
    have hlen : 0 < (validateInclusivity
        (sanitizeMenuBasedOnPolicy input.lunchMenu).1).length :=
      List.length_pos.mpr hI
    simp [fallbackHRStep, hT, hA, hL, hlen]

/-- C3 witness: concrete high / medium classifications on the response
side and the fallback side. -/
theorem riskClassification_precedence_witness :
    parseRiskLevel "peanut sauce" = RiskLevel.high ∧
    parseRiskLevel "an inclusivity gap" = RiskLevel.medium ∧
    (fallbackHRStep ⟨[], ["Fine Cigars"]⟩).riskLevel = RiskLevel.high ∧
    (fallbackHRStep ⟨[], ["Steak frites"]⟩).riskLevel = RiskLevel.medium :=
  ⟨(riskClassification_precedence "peanut sauce" ⟨[], []⟩).1
      (Or.inr (Or.inr (Or.inl (by decide)))),
   (riskClassification_precedence "an inclusivity gap" ⟨[], []⟩).2.1
      (by decide) (by decide),
   (riskClassification_precedence "" ⟨[], ["Fine Cigars"]⟩).2.2.1
      (Or.inl (by decide)),
   (riskClassification_precedence "" ⟨[], ["Steak frites"]⟩).2.2.2
      (by decide) (by decide) (by decide) (by decide)⟩

/-- C7: the normalized employee list has no duplicates and no empty
strings, is a subsequence of the element-wise trimmed input, contains
exactly the non-empty trimmed entries, is ordered by first occurrence in
the trimmed-and-filtered input (so the first occurrence of each distinct
post-trim value is the one kept, in relative order), and empty input
yields empty output. -/
theorem employeeStep_normalized (input : PipelineInput) :
    (employeeStep input).normalizedEmployees.Nodup ∧
    (∀ s ∈ (employeeStep input).normalizedEmployees, s ≠ "") ∧
    (employeeStep input).normalizedEmployees.Sublist
      (input.employees.map jsTrim) ∧
    (∀ s : String, s ∈ (employeeStep input).normalizedEmployees ↔
      s ∈ (input.employees.map jsTrim).filter (fun emp => emp.length > 0)) ∧
    (employeeStep input).normalizedEmployees.Pairwise (fun a b =>
      ((input.employees.map jsTrim).filter
        (fun emp => emp.length > 0)).indexOf a <
      ((input.employees.map jsTrim).filter
        (fun emp => emp.length > 0)).indexOf b) ∧
    (input.employees = [] → (employeeStep input).normalizedEmployees = []) := by
  have hout : (employeeStep input).normalizedEmployees =
      dedupFirstGo [] ((input.employees.map jsTrim).filter
        (fun emp => emp.length > 0)) := rfl
  rw [hout]
  refine ⟨dedupFirstGo_nodup _ _, ?_, ?_, ?_, dedupFirstGo_pairwise _ _, ?_⟩
  · intro s hs
    have hmem := ((mem_dedupFirstGo s _ []).mp hs).1
    have hp : s.length > 0 := of_decide_eq_true (List.mem_filter.mp hmem).2
    intro hempty
    rw [hempty] at hp
    exact absurd hp (by decide)
  · exact (dedupFirstGo_sublist _ []).trans (List.filter_sublist _)
  · intro s
    rw [mem_dedupFirstGo]
    simp
  · intro h
    rw [h]
    rfl

/-- C7 witness: a concrete raw list with surrounding whitespace, an entry
that trims to empty, and a duplicate. -/
theorem employeeStep_normalized_witness :
    (employeeStep ⟨[" Alice ", "Bob", "Alice", "  "], []⟩).normalizedEmployees.Nodup ∧
    "Alice" ≠ "" ∧
    (employeeStep ⟨[" Alice ", "Bob", "Alice", "  "], []⟩).normalizedEmployees.Sublist
      (([" Alice ", "Bob", "Alice", "  "] : List String).map jsTrim) ∧
    ("Alice" ∈ (employeeStep ⟨[" Alice ", "Bob", "Alice", "  "], []⟩).normalizedEmployees ↔
      "Alice" ∈ (([" Alice ", "Bob", "Alice", "  "] : List String).map jsTrim).filter
        (fun emp => emp.length > 0)) ∧
    (employeeStep ⟨[" Alice ", "Bob", "Alice", "  "], []⟩).normalizedEmployees.Pairwise
      (fun a b =>
        ((([" Alice ", "Bob", "Alice", "  "] : List String).map jsTrim).filter
          (fun emp => emp.length > 0)).indexOf a <
        ((([" Alice ", "Bob", "Alice", "  "] : List String).map jsTrim).filter
          (fun emp => emp.length > 0)).indexOf b) ∧
    (employeeStep ⟨[], []⟩).normalizedEmployees = [] :=
  ⟨(employeeStep_normalized ⟨[" Alice ", "Bob", "Alice", "  "], []⟩).1,
   (employeeStep_normalized ⟨[" Alice ", "Bob", "Alice", "  "], []⟩).2.1 "Alice"
     (by decide),
   (employeeStep_normalized ⟨[" Alice ", "Bob", "Alice", "  "], []⟩).2.2.1,
   (employeeStep_normalized ⟨[" Alice ", "Bob", "Alice", "  "], []⟩).2.2.2.1 "Alice",
   (employeeStep_normalized ⟨[" Alice ", "Bob", "Alice", "  "], []⟩).2.2.2.2.1,
   (employeeStep_normalized ⟨[], []⟩).2.2.2.2.2 rfl⟩
